import Mathlib

/-
Verification of the MCP chat client's tool-call orchestration loop
(src/src/file/client.js, class FileSystemMCPClient; the weather variant
in the second source file has an identical processQuery/chatLoop body).

The JavaScript is shallowly embedded: the OpenAI chat-completions call and
the MCP callTool call are modelled as an environment of total functions
returning Except (a JS `throw` is the .error case).  processQuery returns
the final answer string together with a trace of the external calls it
made (each completion call with the exact transcript and tools argument it
was given, and each tool invocation with its outcome), so that ordering
and transcript-content claims can be stated about the trace.
-/

namespace MCPClient

/-- A content block of an MCP tool result (result.content in the SDK). -/
structure ContentBlock where
  btype : String
  text : String
deriving DecidableEq, Repr

/-- Content of a chat message: plain text (user query, assistant text) or
the opaque block list of a tool result, exactly the two shapes pushed into
`messages` by processQuery. -/
inductive MsgContent where
  | text : String → MsgContent
  | blocks : List ContentBlock → MsgContent
deriving DecidableEq, Repr

/-- A transcript entry as built by processQuery: a role string and content. -/
structure Message where
  role : String
  content : MsgContent
deriving DecidableEq, Repr

/-- The initial transcript entry: role user, content the query text
(client.js lines 93-98). -/
def userMsg (q : String) : Message := ⟨"user", .text q⟩

/-- Result of an MCP callTool round-trip: content blocks plus the protocol's
isError flag.  client.js never reads isError; it forwards result.content. -/
structure ToolResult where
  content : List ContentBlock
  isError : Bool
deriving DecidableEq, Repr

/-- The transcript entry pushed after a tool call (client.js lines 140-143):
role is the literal "user" and the content is the tool result's blocks. -/
def resMsg (r : ToolResult) : Message := ⟨"user", .blocks r.content⟩

instance {ε α : Type} [DecidableEq ε] [DecidableEq α] : DecidableEq (Except ε α) :=
  fun a b =>
    match a, b with
    | .error e, .error f =>
      if h : e = f then isTrue (h ▸ rfl) else isFalse fun hc => h (by cases hc; rfl)
    | .error _, .ok _ => isFalse fun hc => by cases hc
    | .ok _, .error _ => isFalse fun hc => by cases hc
    | .ok x, .ok y =>
      if h : x = y then isTrue (h ▸ rfl) else isFalse fun hc => h (by cases hc; rfl)

/-- A tool call attached to an assistant message.  `args` is the outcome of
JSON.parse on the arguments string: .ok carries the parsed argument object
(represented by its JSON.stringify form, the only use the client makes of
it), .error carries the SyntaxError message thrown on malformed JSON. -/
structure ToolCall where
  name : String
  args : Except String String
deriving DecidableEq, Repr

/-- The message of one completion candidate: optional text content and the
optional tool_calls array. -/
structure AssistantMsg where
  content : Option String
  tool_calls : Option (List ToolCall)
deriving DecidableEq, Repr

/-- One candidate reply (an element of response.choices). -/
structure Choice where
  message : AssistantMsg
deriving DecidableEq, Repr

/-- A chat-completions response: the list of candidate replies. -/
structure Response where
  choices : List Choice
deriving DecidableEq, Repr

/-- A tool in the OpenAI function-calling format, as built by
connectToFileSystemServer (client.js lines 65-74).  `description` is copied
verbatim from the descriptor, so a missing description stays missing. -/
structure CallableTool where
  ftype : String
  name : String
  description : Option String
  parameters : String
deriving DecidableEq, Repr

/-- A tool descriptor as advertised by the MCP server via listTools. -/
structure ToolDescriptor where
  name : String
  description : Option String
  inputSchema : String
deriving DecidableEq, Repr

/-- The Tool Registry Adapter: the map in connectToFileSystemServer
(client.js lines 65-74) turning each descriptor into a function-typed
CallableTool, copying name, description and schema through unchanged. -/
def adaptTools (ds : List ToolDescriptor) : List CallableTool :=
  ds.map fun t => ⟨"function", t.name, t.description, t.inputSchema⟩

/-- The environment of external collaborators: the chat endpoint (given the
transcript and the optional tools argument) and the MCP callTool (given the
tool name and the stringified arguments).  An .error result models a thrown
exception carrying the error's message. -/
structure Env where
  complete : List Message → Option (List CallableTool) → Except String Response
  callTool : String → String → Except String ToolResult

/-- An externally observable event of one processQuery run: a completion
request with the transcript and tools it was sent, or a tool invocation
with its outcome. -/
inductive Event where
  | completionCall : List Message → Option (List CallableTool) → Event
  | toolInvocation : String → String → Except String ToolResult → Event
deriving DecidableEq, Repr

/-- The trace line pushed for a tool call (client.js lines 136-138). -/
def traceLine (name args : String) : String :=
  "[Calling tool " ++ name ++ " with args " ++ args ++ "]"

/-- The message of the TypeError thrown by response.choices[0].message when
the choices array is empty (modelled with a fixed message string). -/
def undefinedMessageError : String := "Cannot read properties of undefined"

/-- JS truthiness of `if (message.content)`: a null/undefined or empty
string is not pushed into finalText (client.js lines 117-119, 151-153). -/
def contentPush : Option String → List String
  | some s => if s = "" then [] else [s]
  | none => []

/-- finalText.join with a newline separator (client.js line 158). -/
def joinLines : List String → String
  | [] => ""
  | [x] => x
  | x :: xs => x ++ "\n" ++ joinLines xs

/-- The evolving state of one processQuery run after a processing step:
the transcript so far, the finalText entries contributed, the events
emitted, and the pending exception if the step threw. -/
structure StepOut where
  messages : List Message
  texts : List String
  events : List Event
  err : Option String
deriving Repr

/-- The inner for-loop over message.tool_calls (client.js lines 123-154):
for each call, JSON.parse the arguments (throwing aborts), invoke the tool
(throwing aborts), push the trace line, append the result as a user-role
message, issue one follow-up completion without tools, and push the first
follow-up candidate's text if truthy. -/
def runToolCalls (env : Env) : List ToolCall → List Message → StepOut
  | [], msgs => ⟨msgs, [], [], none⟩
  | tc :: rest, msgs =>
    match tc.args with
    | .error e => ⟨msgs, [], [], some e⟩
    | .ok argsStr =>
      match env.callTool tc.name argsStr with
      | .error e => ⟨msgs, [], [.toolInvocation tc.name argsStr (.error e)], some e⟩
      | .ok result =>
        let msgs2 := msgs ++ [resMsg result]
        let ev1 := Event.toolInvocation tc.name argsStr (.ok result)
        let ev2 := Event.completionCall msgs2 none
        match env.complete msgs2 none with
        | .error e => ⟨msgs2, [traceLine tc.name argsStr], [ev1, ev2], some e⟩
        | .ok r2 =>
          match r2.choices with
          | [] => ⟨msgs2, [traceLine tc.name argsStr], [ev1, ev2],
                   some undefinedMessageError⟩
          | c :: _ =>
            let out := runToolCalls env rest msgs2
            ⟨out.messages,
             traceLine tc.name argsStr :: contentPush c.message.content ++ out.texts,
             ev1 :: ev2 :: out.events, out.err⟩

/-- The outer for-loop over response.choices (client.js lines 115-156):
for each candidate, push its text if truthy, then run its tool calls. -/
def runChoices (env : Env) : List Choice → List Message → StepOut
  | [], msgs => ⟨msgs, [], [], none⟩
  | c :: rest, msgs =>
    match c.message.tool_calls with
    | none =>
      let out := runChoices env rest msgs
      ⟨out.messages, contentPush c.message.content ++ out.texts, out.events, out.err⟩
    | some tcs =>
      let o1 := runToolCalls env tcs msgs
      match o1.err with
      | some e => ⟨o1.messages, contentPush c.message.content ++ o1.texts,
                   o1.events, some e⟩
      | none =>
        let o2 := runChoices env rest o1.messages
        ⟨o2.messages, contentPush c.message.content ++ o1.texts ++ o2.texts,
         o1.events ++ o2.events, o2.err⟩

/-- processQuery (client.js lines 86-165): build the one-entry transcript,
issue the initial completion with the tool registry, walk the candidates,
join finalText with newlines; any exception is caught at the query boundary
and turned into the string "Error: " followed by the error's message. -/
def processQuery (env : Env) (tools : List CallableTool) (query : String) :
    String × List Event :=
  let msgs := [userMsg query]
  let ev0 := Event.completionCall msgs (some tools)
  match env.complete msgs (some tools) with
  | .error e => ("Error: " ++ e, [ev0])
  | .ok response =>
    match response.choices with
    | [] => ("Error: " ++ undefinedMessageError, [ev0])
    | _ =>
      let out := runChoices env response.choices msgs
      match out.err with
      | some e => ("Error: " ++ e, ev0 :: out.events)
      | none => (joinLines out.texts, ev0 :: out.events)

/-- JS String.prototype.toLowerCase, modelled as per-character lowering
(the inputs of interest are ASCII, where the two agree). -/
def lowerStr (s : String) : String := ⟨s.data.map Char.toLower⟩

/-- chatLoop (client.js lines 197-214), modelled over a finite list of
input lines, with a fresh environment per query: a line whose toLowerCase
is "quit" ends the loop; any other line is handed to processQuery and the
loop continues with the answer recorded. -/
def chatLoop (envs : Nat → Env) (tools : List CallableTool) :
    Nat → List String → List (String × String × List Event)
  | _, [] => []
  | i, line :: rest =>
    if lowerStr line = "quit" then []
    else
      let r := processQuery (envs i) tools line
      (line, r.1, r.2) :: chatLoop envs tools (i + 1) rest

/-- main's session (client.js lines 225-237): run the chat loop, then the
finally block calls process.exit(0) unconditionally. -/
def session (envs : Nat → Env) (tools : List CallableTool) (lines : List String) :
    List (String × String × List Event) × Nat :=
  (chatLoop envs tools 0 lines, 0)

/-- A single-candidate response with the given content and tool_calls. -/
def oneChoice (c : Option String) (tcs : Option (List ToolCall)) : Response :=
  ⟨[⟨⟨c, tcs⟩⟩]⟩

/-- An environment in which every external call throws with message e. -/
def errEnv (e : String) : Env :=
  ⟨fun _ _ => .error e, fun _ _ => .error e⟩

/-- An environment whose completions always return one text-only choice. -/
def textOnlyEnv (t : String) : Env :=
  ⟨fun _ _ => .ok (oneChoice (some t) none), fun _ _ => .error "unused"⟩

/-- An environment whose initial completion returns two text-only
candidates, with no tool calls anywhere. -/
def twoTextEnv (a b : String) : Env :=
  ⟨fun _ _ => .ok ⟨[⟨⟨some a, none⟩⟩, ⟨⟨some b, none⟩⟩]⟩,
   fun _ _ => .ok ⟨[], false⟩⟩

/-- An environment whose initial completion requests one tool call (name n,
parsed arguments a); the tool invocation yields the given outcome and every
follow-up completion returns the text ft. -/
def singleCallEnv (n a : String) (outcome : Except String ToolResult) (ft : String) :
    Env :=
  ⟨fun _ tools? =>
    match tools? with
    | some _ => .ok (oneChoice none (some [⟨n, .ok a⟩]))
    | none => .ok (oneChoice (some ft) none),
   fun _ _ => outcome⟩

/-- An environment whose initial completion requests a tool call whose
arguments string fails JSON.parse with message m, followed by a second,
well-formed call that should never be reached. -/
def parseFailEnv (n m : String) : Env :=
  ⟨fun _ tools? =>
    match tools? with
    | some _ => .ok (oneChoice none (some [⟨n, .error m⟩, ⟨"second-tool", .ok "x"⟩]))
    | none => .ok (oneChoice (some "unreached") none),
   fun _ _ => .ok ⟨[], false⟩⟩

/-- An environment whose initial completion requests two tool calls n1 and
n2 in that order; the tool returns r1 for name n1 and r2 otherwise, and the
follow-up completion returns t1 on the two-message transcript (after the
first call) and t2 on longer transcripts. -/
def twoCallEnv (n1 a1 n2 a2 : String) (r1 r2 : ToolResult) (t1 t2 : String) : Env :=
  ⟨fun msgs tools? =>
    match tools? with
    | some _ => .ok (oneChoice none (some [⟨n1, .ok a1⟩, ⟨n2, .ok a2⟩]))
    | none =>
      if msgs.length = 2 then .ok (oneChoice (some t1) none)
      else .ok (oneChoice (some t2) none),
   fun n _ => if n = n1 then .ok r1 else .ok r2⟩

/-- True of a follow-up completion event (one issued without the tool
registry). -/
def isFollowUp : Event → Bool
  | .completionCall _ none => true
  | _ => false

/-- The transcript obtained from acc by appending, for each successful tool
invocation in the event list, its result as a user-role message. -/
def accAfter (acc : List Message) : List Event → List Message
  | [] => acc
  | .toolInvocation _ _ (.ok r) :: es => accAfter (acc ++ [resMsg r]) es
  | _ :: es => accAfter acc es

/-- Checks that every follow-up completion in the event list was sent
exactly the running transcript: acc extended, at each successful tool
invocation, by that tool's result as a user-role message, in trace order.
Initial completions (tools present) are not constrained. -/
def followUpsOk (acc : List Message) : List Event → Bool
  | [] => true
  | .completionCall t none :: es => if t = acc then followUpsOk acc es else false
  | .completionCall _ (some _) :: es => followUpsOk acc es
  | .toolInvocation _ _ (.ok r) :: es => followUpsOk (acc ++ [resMsg r]) es
  | .toolInvocation _ _ (.error _) :: es => followUpsOk acc es

/-- Checks that in the event list every successful tool invocation is
immediately followed by exactly one follow-up completion (tools omitted)
and that follow-up completions occur nowhere else.  The flag records
whether a successful tool invocation was just seen. -/
def pairedFollowUps : Bool → List Event → Bool
  | false, [] => true
  | true, [] => false
  | false, .completionCall _ (some _) :: es => pairedFollowUps false es
  | false, .completionCall _ none :: _ => false
  | false, .toolInvocation _ _ (.error _) :: es => pairedFollowUps false es
  | false, .toolInvocation _ _ (.ok _) :: es => pairedFollowUps true es
  | true, .completionCall _ none :: es => pairedFollowUps false es
  | true, _ :: _ => false

/-- A successful tool result carrying formatted forecast text. -/
def c1Result : ToolResult := ⟨[⟨"text", "forecast"⟩], false⟩

/-- A tool result by which the tool server signals failure (isError set). -/
def failedResult : ToolResult := ⟨[⟨"text", "tool reported failure"⟩], true⟩

/-- A successful weather tool result for the two-call scenario. -/
def wRes1 : ToolResult := ⟨[⟨"text", "weather data"⟩], false⟩

/-- A successful file tool result for the two-call scenario. -/
def wRes2 : ToolResult := ⟨[⟨"text", "file data"⟩], false⟩

theorem accAfter_append (acc : List Message) (es1 es2 : List Event) :
    accAfter acc (es1 ++ es2) = accAfter (accAfter acc es1) es2 := by
  induction es1 generalizing acc with
  | nil => rfl
  | cons e es ih =>
    cases e with
    | completionCall t topt => simp [accAfter, ih]
    | toolInvocation n a o =>
      cases o with
      | ok r => simp [accAfter, ih]
      | error m => simp [accAfter, ih]

theorem followUpsOk_append (acc : List Message) (es1 es2 : List Event) :
    followUpsOk acc (es1 ++ es2)
      = (followUpsOk acc es1 && followUpsOk (accAfter acc es1) es2) := by
  induction es1 generalizing acc with
  | nil => simp [followUpsOk, accAfter]
  | cons e es ih =>
    cases e with
    | completionCall t topt =>
      cases topt with
      | none =>
        by_cases h : t = acc <;> simp [followUpsOk, accAfter, h, ih]
      | some T => simp [followUpsOk, accAfter, ih]
    | toolInvocation n a o =>
      cases o with
      | ok r => simp [followUpsOk, accAfter, ih]
      | error m => simp [followUpsOk, accAfter, ih]

theorem runToolCalls_inv (env : Env) (tcs : List ToolCall) (msgs : List Message) :
    (runToolCalls env tcs msgs).messages
      = accAfter msgs (runToolCalls env tcs msgs).events ∧
    followUpsOk msgs (runToolCalls env tcs msgs).events = true := by
  induction tcs generalizing msgs with
  | nil => simp [runToolCalls, accAfter, followUpsOk]
  | cons tc rest ih =>
    cases hargs : tc.args with
    | error e => simp [runToolCalls, hargs, accAfter, followUpsOk]
    | ok argsStr =>
      cases hct : env.callTool tc.name argsStr with
      | error e => simp [runToolCalls, hargs, hct, accAfter, followUpsOk]
      | ok result =>
        cases hc : env.complete (msgs ++ [resMsg result]) none with
        | error e => simp [runToolCalls, hargs, hct, hc, accAfter, followUpsOk]
        | ok r2 =>
          cases hch : r2.choices with
          | nil => simp [runToolCalls, hargs, hct, hc, hch, accAfter, followUpsOk]
          | cons c cs =>
            have h2 := ih (msgs ++ [resMsg result])
            simp [runToolCalls, hargs, hct, hc, hch, accAfter, followUpsOk,
                  h2.1, h2.2]

theorem runChoices_inv (env : Env) (cs : List Choice) (msgs : List Message) :
    (runChoices env cs msgs).messages
      = accAfter msgs (runChoices env cs msgs).events ∧
    followUpsOk msgs (runChoices env cs msgs).events = true := by
  induction cs generalizing msgs with
  | nil => simp [runChoices, accAfter, followUpsOk]
  | cons c rest ih =>
    cases htc : c.message.tool_calls with
    | none =>
      have h2 := ih msgs
      simp [runChoices, htc, h2.1, h2.2]
    | some tcs =>
      have h1 := runToolCalls_inv env tcs msgs
      cases herr : (runToolCalls env tcs msgs).err with
      | some e => simp [runChoices, htc, herr, h1.1, h1.2]
      | none =>
        have h2 := ih (runToolCalls env tcs msgs).messages
        constructor
        · simp only [runChoices, htc, herr]
          rw [accAfter_append, ← h1.1]
          exact h2.1
        · simp only [runChoices, htc, herr]
          rw [followUpsOk_append, h1.2, ← h1.1, h2.2]
          rfl

theorem pairedFollowUps_append (es1 es2 : List Event) (b : Bool)
    (h : pairedFollowUps b es1 = true) :
    pairedFollowUps b (es1 ++ es2) = pairedFollowUps false es2 := by
  induction es1 generalizing b with
  | nil =>
    cases b with
    | false => rfl
    | true => simp [pairedFollowUps] at h
  | cons e es ih =>
    cases b with
    | false =>
      cases e with
      | completionCall t topt =>
        cases topt with
        | none => simp [pairedFollowUps] at h
        | some T =>
          simp only [pairedFollowUps] at h
          simp only [List.cons_append, pairedFollowUps]
          exact ih _ h
      | toolInvocation n a o =>
        cases o with
        | ok r =>
          simp only [pairedFollowUps] at h
          simp only [List.cons_append, pairedFollowUps]
          exact ih _ h
        | error m =>
          simp only [pairedFollowUps] at h
          simp only [List.cons_append, pairedFollowUps]
          exact ih _ h
    | true =>
      cases e with
      | completionCall t topt =>
        cases topt with
        | none =>
          simp only [pairedFollowUps] at h
          simp only [List.cons_append, pairedFollowUps]
          exact ih _ h
        | some T => simp [pairedFollowUps] at h
      | toolInvocation n a o => simp [pairedFollowUps] at h

theorem runToolCalls_paired (env : Env) (tcs : List ToolCall) (msgs : List Message) :
    pairedFollowUps false (runToolCalls env tcs msgs).events = true := by
  induction tcs generalizing msgs with
  | nil => rfl
  | cons tc rest ih =>
    cases hargs : tc.args with
    | error e => simp [runToolCalls, hargs, pairedFollowUps]
    | ok argsStr =>
      cases hct : env.callTool tc.name argsStr with
      | error e => simp [runToolCalls, hargs, hct, pairedFollowUps]
      | ok result =>
        cases hc : env.complete (msgs ++ [resMsg result]) none with
        | error e => simp [runToolCalls, hargs, hct, hc, pairedFollowUps]
        | ok r2 =>
          cases hch : r2.choices with
          | nil => simp [runToolCalls, hargs, hct, hc, hch, pairedFollowUps]
          | cons c cs => simp [runToolCalls, hargs, hct, hc, hch, pairedFollowUps, ih]

theorem runChoices_paired (env : Env) (cs : List Choice) (msgs : List Message) :
    pairedFollowUps false (runChoices env cs msgs).events = true := by
  induction cs generalizing msgs with
  | nil => rfl
  | cons c rest ih =>
    cases htc : c.message.tool_calls with
    | none => simp [runChoices, htc, ih]
    | some tcs =>
      cases herr : (runToolCalls env tcs msgs).err with
      | some e => simp [runChoices, htc, herr, runToolCalls_paired]
      | none =>
        simp only [runChoices, htc, herr]
        rw [pairedFollowUps_append _ _ _ (runToolCalls_paired env tcs msgs)]
        exact ih _

theorem runChoices_textOnly (env : Env) (texts : List String)
    (msgs : List Message) (ht : ∀ t ∈ texts, t ≠ "") :
    runChoices env (texts.map fun t => ⟨⟨some t, none⟩⟩) msgs
      = ⟨msgs, texts, [], none⟩ := by
  induction texts generalizing msgs with
  | nil => rfl
  | cons t ts ih =>
    have hts : ∀ x ∈ ts, x ≠ "" := fun x hx => ht x (List.mem_cons_of_mem t hx)
    have hhd : t ≠ "" := ht t (List.mem_cons_self t ts)
    simp [runChoices, ih msgs hts, contentPush, hhd]

theorem twoCall_run (env : Env) (tools : List CallableTool)
    (q n1 a1 n2 a2 t1 t2 : String) (r1 r2 : ToolResult)
    (hc0 : env.complete [userMsg q] (some tools)
      = .ok (oneChoice none (some [⟨n1, .ok a1⟩, ⟨n2, .ok a2⟩])))
    (hx1 : env.callTool n1 a1 = .ok r1)
    (hx2 : env.callTool n2 a2 = .ok r2)
    (hf1 : env.complete [userMsg q, resMsg r1] none
      = .ok (oneChoice (some t1) none))
    (hf2 : env.complete [userMsg q, resMsg r1, resMsg r2] none
      = .ok (oneChoice (some t2) none))
    (h1 : t1 ≠ "") (h2 : t2 ≠ "") :
    processQuery env tools q
      = (joinLines [traceLine n1 a1, t1, traceLine n2 a2, t2],
         [Event.completionCall [userMsg q] (some tools),
          Event.toolInvocation n1 a1 (.ok r1),
          Event.completionCall [userMsg q, resMsg r1] none,
          Event.toolInvocation n2 a2 (.ok r2),
          Event.completionCall [userMsg q, resMsg r1, resMsg r2] none]) := by
  simp [processQuery, hc0, oneChoice, runChoices, runToolCalls, hx1, hx2,
        hf1, hf2, contentPush, h1, h2, joinLines]

/-- C6: for every query in which the Gateway's reply contains no tool
calls (a single candidate with text t and no tool_calls), the final answer
equals the reply's text exactly, with no trace lines appended. -/
theorem no_toolcalls_answer_is_text (env : Env) (tools : List CallableTool)
    (q t : String)
    (h : env.complete [userMsg q] (some tools) = .ok (oneChoice (some t) none)) :
    (processQuery env tools q).1 = t := by
  by_cases ht : t = "" <;>
    simp [processQuery, h, oneChoice, runChoices, contentPush, joinLines, ht]

/-- Witness for no_toolcalls_answer_is_text at a concrete environment. -/
theorem no_toolcalls_answer_is_text_witness :
    (processQuery (textOnlyEnv "hello there") [] "hi").1 = "hello there" :=
  no_toolcalls_answer_is_text (textOnlyEnv "hello there") [] "hi" "hello there" rfl

/-- C7: a chat-endpoint failure during a query is caught once at the
per-query boundary: the query makes exactly one gateway call (no retry or
back-off, as the singleton event trace shows), its answer is the string
Error: followed by the provider's message, and the session still processes
the next query. -/
theorem gateway_error_caught_per_query (envs : Nat → Env)
    (tools : List CallableTool) (l1 l2 e : String)
    (h1 : ¬ lowerStr l1 = "quit") (h2 : ¬ lowerStr l2 = "quit")
    (hg : (envs 0).complete [userMsg l1] (some tools) = .error e) :
    chatLoop envs tools 0 [l1, l2] =
      [(l1, "Error: " ++ e, [Event.completionCall [userMsg l1] (some tools)]),
       (l2, (processQuery (envs 1) tools l2).1, (processQuery (envs 1) tools l2).2)] := by
  simp [chatLoop, h1, h2, processQuery, hg]

/-- Witness for gateway_error_caught_per_query at a concrete environment. -/
theorem gateway_error_caught_per_query_witness :
    chatLoop (fun _ => errEnv "rate limited") [] 0 ["hello", "again"] =
      [("hello", "Error: rate limited",
        [Event.completionCall [userMsg "hello"] (some [])]),
       ("again", "Error: rate limited",
        [Event.completionCall [userMsg "again"] (some [])])] := by
  have h := gateway_error_caught_per_query (fun _ => errEnv "rate limited") []
    "hello" "again" "rate limited" (by decide) (by decide) rfl
  rw [h]; rfl

/-- C8: the tool registry adapter is a pure, total, order-preserving map:
the empty list yields the empty sequence, the output length and order
match the input, names and descriptions are copied through unchanged (so a
missing description stays missing, that is empty, and duplicate names are
both kept), and a single descriptor yields exactly one CallableTool with
the same name. -/
theorem adapt_order_preserving_total :
    (adaptTools [] = []) ∧
    (∀ ds, (adaptTools ds).length = ds.length) ∧
    (∀ ds, (adaptTools ds).map CallableTool.name = ds.map ToolDescriptor.name) ∧
    (∀ ds, (adaptTools ds).map CallableTool.description
      = ds.map ToolDescriptor.description) ∧
    (∀ d, adaptTools [d] = [⟨"function", d.name, d.description, d.inputSchema⟩]) ∧
    (∀ d, (adaptTools [d, d]).length = 2) := by
  refine ⟨rfl, ?_, ?_, ?_, ?_, ?_⟩ <;> intro ds <;> simp [adaptTools]

/-- C9: an input line that is the literal quit in any letter casing ends
the session loop at once: no query is processed for that line (so the
Gateway is never invoked for it), the remaining lines are not read, and
the process exits with code 0. -/
theorem quit_terminates_session (envs : Nat → Env) (tools : List CallableTool)
    (line : String) (rest : List String) (h : lowerStr line = "quit") :
    session envs tools (line :: rest) = ([], 0) := by
  simp [session, chatLoop, h]

/-- Witness for quit_terminates_session on the input QUIT. -/
theorem quit_terminates_session_witness :
    session (fun _ => errEnv "x") [] ["QUIT", "more"] = ([], 0) :=
  quit_terminates_session (fun _ => errEnv "x") [] "QUIT" ["more"] (by decide)

/-- C10: if the first tool call of the reply has an arguments string that
fails JSON.parse with message m, processQuery executes neither that call
nor any later one (the trace holds only the initial completion), and the
query's answer is the string Error: followed by m; processQuery, a total
function, returns a string rather than throwing. -/
theorem malformed_args_abort_query (env : Env) (tools : List CallableTool)
    (q n m : String) (c : Option String) (rest : List ToolCall)
    (h : env.complete [userMsg q] (some tools)
      = .ok (oneChoice c (some (⟨n, .error m⟩ :: rest)))) :
    processQuery env tools q
      = ("Error: " ++ m, [Event.completionCall [userMsg q] (some tools)]) := by
  simp [processQuery, h, oneChoice, runChoices, runToolCalls]

/-- Witness for malformed_args_abort_query at a concrete environment. -/
theorem malformed_args_abort_query_witness :
    processQuery (parseFailEnv "writeFile" "Unexpected token") [] "save it"
      = ("Error: " ++ "Unexpected token",
         [Event.completionCall [userMsg "save it"] (some [])]) :=
  malformed_args_abort_query (parseFailEnv "writeFile" "Unexpected token") []
    "save it" "writeFile" "Unexpected token" none [⟨"second-tool", .ok "x"⟩] rfl

/-- C5 counterexample: the loop consumes every candidate reply, not only
the first.  With two text candidates alpha and beta, the final answer is
their concatenation, not alpha alone, so the second candidate affected the
final answer. -/
theorem second_candidate_affects_answer :
    (processQuery (twoTextEnv "alpha" "beta") [] "q").1 = "alpha" ++ "\n" ++ "beta" ∧
    ("alpha" ++ "\n" ++ "beta") ≠ "alpha" := by
  exact ⟨rfl, by decide⟩

/-- C5 amended: for every query and every environment whose chat endpoint
returns any non-empty list of text candidates, the orchestration loop
consumes every candidate reply in order: the final answer is the join of
all the candidates' texts, not just the first candidate's. -/
theorem all_candidates_consumed (env : Env) (tools : List CallableTool)
    (q : String) (texts : List String) (hne : texts ≠ [])
    (hc : env.complete [userMsg q] (some tools)
      = .ok ⟨texts.map fun t => ⟨⟨some t, none⟩⟩⟩)
    (ht : ∀ t ∈ texts, t ≠ "") :
    processQuery env tools q
      = (joinLines texts, [Event.completionCall [userMsg q] (some tools)]) := by
  cases texts with
  | nil => exact absurd rfl hne
  | cons t ts =>
    have hrun := runChoices_textOnly env (t :: ts) [userMsg q] ht
    simp only [List.map] at hc hrun
    simp [processQuery, hc, hrun]

/-- Witness for all_candidates_consumed at concrete candidate texts. -/
theorem all_candidates_consumed_witness :
    processQuery (twoTextEnv "first text" "second text") [] "q"
      = (joinLines ["first text", "second text"],
         [Event.completionCall [userMsg "q"] (some [])]) :=
  all_candidates_consumed (twoTextEnv "first text" "second text") [] "q"
    ["first text", "second text"] (by decide) rfl (by decide)

/-- C1 counterexample: the assistant's tool-call message is never appended
to the transcript.  In a run with one tool call, the transcript passed to
the follow-up completion is exactly the user query followed by the tool
output as a user-role message; it contains no assistant-role message, so
the claimed transcript shape (prior transcript, plus the assistant's
tool-call message, plus the tool outputs) does not hold. -/
theorem followup_lacks_assistant_message :
    (processQuery (singleCallEnv "get-weather" "cityargs" (.ok c1Result) "done")
      [] "q").2
      = [Event.completionCall [userMsg "q"] (some []),
         Event.toolInvocation "get-weather" "cityargs" (.ok c1Result),
         Event.completionCall [userMsg "q", resMsg c1Result] none] ∧
    (([userMsg "q", resMsg c1Result].all fun m => m.role != "assistant") = true) :=
  ⟨rfl, rfl⟩

/-- C1 amended: for every query, the transcript passed to the Chat
Completion Gateway on each follow-up round-trip equals the prior
transcript with the resulting tool outputs appended as user-role
messages, in the order the tool calls were requested; the assistant's
tool-call message itself is not appended. -/
theorem followup_transcript_appends_tool_outputs (env : Env)
    (tools : List CallableTool) (q : String) :
    followUpsOk [userMsg q] (processQuery env tools q).2 = true := by
  cases hc : env.complete [userMsg q] (some tools) with
  | error e => simp [processQuery, hc, followUpsOk]
  | ok response =>
    cases hch : response.choices with
    | nil => simp [processQuery, hc, hch, followUpsOk]
    | cons c cs =>
      have h := runChoices_inv env (c :: cs) [userMsg q]
      cases herr : (runChoices env (c :: cs) [userMsg q]).err with
      | some e => simp [processQuery, hc, hch, herr, followUpsOk, h.2]
      | none => simp [processQuery, hc, hch, herr, followUpsOk, h.2]

/-- C2 counterexample: a tool-call execution that throws (transport error
or malformed reply) is not converted into a non-throwing failure result:
it aborts the orchestration loop.  The query's answer is the Error string,
which contains no trace line for the tool, and the trace shows that no
follow-up completion was issued for the call. -/
theorem throwing_toolcall_aborts_query :
    processQuery
        (singleCallEnv "get-weather" "cityargs" (.error "fetch failed") "unreached")
        [] "q"
      = ("Error: fetch failed",
         [Event.completionCall [userMsg "q"] (some []),
          Event.toolInvocation "get-weather" "cityargs" (.error "fetch failed")]) ∧
    (((processQuery
        (singleCallEnv "get-weather" "cityargs" (.error "fetch failed") "unreached")
        [] "q").2.all fun e => !(isFollowUp e)) = true) :=
  ⟨rfl, rfl⟩

/-- C2 amended: only a failure the tool server signals through a normally
returned result (its isError flag, which client.js never inspects) is
treated as a regular tool result: the loop does not abort, still issues
the follow-up completion for that call, and the final answer contains the
trace line referencing the failed tool's name.  A tool-call execution that
throws instead aborts the query at the query-level handler. -/
theorem tool_failure_result_keeps_loop (env : Env) (tools : List CallableTool)
    (q n a ft : String) (r : ToolResult)
    (h1 : env.complete [userMsg q] (some tools)
      = .ok (oneChoice none (some [⟨n, .ok a⟩])))
    (h2 : env.callTool n a = .ok r)
    (h3 : env.complete [userMsg q, resMsg r] none = .ok (oneChoice (some ft) none))
    (h4 : ft ≠ "") :
    processQuery env tools q
      = (joinLines [traceLine n a, ft],
         [Event.completionCall [userMsg q] (some tools),
          Event.toolInvocation n a (.ok r),
          Event.completionCall [userMsg q, resMsg r] none]) := by
  simp [processQuery, h1, oneChoice, runChoices, runToolCalls, h2, h3,
        contentPush, h4]

/-- Witness for tool_failure_result_keeps_loop with a result whose isError
flag is set (the tool server signaling failure). -/
theorem tool_failure_result_keeps_loop_witness :
    processQuery (singleCallEnv "get-weather" "cityargs" (.ok failedResult)
        "it failed") [] "w"
      = (joinLines [traceLine "get-weather" "cityargs", "it failed"],
         [Event.completionCall [userMsg "w"] (some []),
          Event.toolInvocation "get-weather" "cityargs" (.ok failedResult),
          Event.completionCall [userMsg "w", resMsg failedResult] none]) :=
  tool_failure_result_keeps_loop
    (singleCallEnv "get-weather" "cityargs" (.ok failedResult) "it failed")
    [] "w" "get-weather" "cityargs" "it failed" failedResult rfl rfl rfl
    (by decide)

/-- C3: for every tool call the model requests, the loop performs exactly
one follow-up completion immediately after that call's result is appended,
with the tool registry omitted (first conjunct: in every trace, each
successful tool invocation is immediately followed by exactly one
completion call without tools, and such completions occur nowhere else),
and the final answer contains, per tool call, the trace line followed by
the follow-up's returned text in that order (second conjunct, on a
two-call scenario with arbitrary names, arguments, results and texts). -/
theorem per_toolcall_single_followup :
    (∀ env tools q, pairedFollowUps false (processQuery env tools q).2 = true) ∧
    (∀ (env : Env) (tools : List CallableTool)
      (q n1 a1 n2 a2 t1 t2 : String) (r1 r2 : ToolResult),
      env.complete [userMsg q] (some tools)
        = .ok (oneChoice none (some [⟨n1, .ok a1⟩, ⟨n2, .ok a2⟩])) →
      env.callTool n1 a1 = .ok r1 →
      env.callTool n2 a2 = .ok r2 →
      env.complete [userMsg q, resMsg r1] none = .ok (oneChoice (some t1) none) →
      env.complete [userMsg q, resMsg r1, resMsg r2] none
        = .ok (oneChoice (some t2) none) →
      t1 ≠ "" → t2 ≠ "" →
      processQuery env tools q
        = (joinLines [traceLine n1 a1, t1, traceLine n2 a2, t2],
           [Event.completionCall [userMsg q] (some tools),
            Event.toolInvocation n1 a1 (.ok r1),
            Event.completionCall [userMsg q, resMsg r1] none,
            Event.toolInvocation n2 a2 (.ok r2),
            Event.completionCall [userMsg q, resMsg r1, resMsg r2] none])) := by
  constructor
  · intro env tools q
    cases hc : env.complete [userMsg q] (some tools) with
    | error e => simp [processQuery, hc, pairedFollowUps]
    | ok response =>
      cases hch : response.choices with
      | nil => simp [processQuery, hc, hch, pairedFollowUps]
      | cons c cs =>
        have h := runChoices_paired env (c :: cs) [userMsg q]
        cases herr : (runChoices env (c :: cs) [userMsg q]).err with
        | some e => simp [processQuery, hc, hch, herr, pairedFollowUps, h]
        | none => simp [processQuery, hc, hch, herr, pairedFollowUps, h]
  · intro env tools q n1 a1 n2 a2 t1 t2 r1 r2 hc0 hx1 hx2 hf1 hf2 h1 h2
    exact twoCall_run env tools q n1 a1 n2 a2 t1 t2 r1 r2 hc0 hx1 hx2 hf1 hf2 h1 h2

/-- Witness for per_toolcall_single_followup at a concrete two-call run. -/
theorem per_toolcall_single_followup_witness :
    processQuery (twoCallEnv "get-weather" "beijing-args" "read-file"
        "path-args" wRes1 wRes2 "sunny" "saved") [] "w"
      = (joinLines [traceLine "get-weather" "beijing-args", "sunny",
          traceLine "read-file" "path-args", "saved"],
         [Event.completionCall [userMsg "w"] (some []),
          Event.toolInvocation "get-weather" "beijing-args" (.ok wRes1),
          Event.completionCall [userMsg "w", resMsg wRes1] none,
          Event.toolInvocation "read-file" "path-args" (.ok wRes2),
          Event.completionCall [userMsg "w", resMsg wRes1, resMsg wRes2] none]) :=
  per_toolcall_single_followup.2
    (twoCallEnv "get-weather" "beijing-args" "read-file" "path-args" wRes1 wRes2
      "sunny" "saved")
    [] "w" "get-weather" "beijing-args" "read-file" "path-args" "sunny" "saved"
    wRes1 wRes2 (by decide) (by decide) (by decide) (by decide) (by decide)
    (by decide) (by decide)

/-- C4: for an assistant reply with tool calls A then B, the Tool Executor
is invoked for A strictly before B (the trace lists A's invocation, then
its follow-up, then B's invocation), and the transcript passed to the
follow-up completion issued after A does not yet contain B's result. -/
theorem sequential_tool_execution (env : Env) (tools : List CallableTool)
    (q n1 a1 n2 a2 t1 t2 : String) (r1 r2 : ToolResult)
    (hc0 : env.complete [userMsg q] (some tools)
      = .ok (oneChoice none (some [⟨n1, .ok a1⟩, ⟨n2, .ok a2⟩])))
    (hx1 : env.callTool n1 a1 = .ok r1)
    (hx2 : env.callTool n2 a2 = .ok r2)
    (hf1 : env.complete [userMsg q, resMsg r1] none
      = .ok (oneChoice (some t1) none))
    (hf2 : env.complete [userMsg q, resMsg r1, resMsg r2] none
      = .ok (oneChoice (some t2) none))
    (h1 : t1 ≠ "") (h2 : t2 ≠ "")
    (hr : r1.content ≠ r2.content) :
    (processQuery env tools q).2
      = [Event.completionCall [userMsg q] (some tools),
         Event.toolInvocation n1 a1 (.ok r1),
         Event.completionCall [userMsg q, resMsg r1] none,
         Event.toolInvocation n2 a2 (.ok r2),
         Event.completionCall [userMsg q, resMsg r1, resMsg r2] none] ∧
    resMsg r2 ∉ [userMsg q, resMsg r1] := by
  constructor
  · rw [twoCall_run env tools q n1 a1 n2 a2 t1 t2 r1 r2 hc0 hx1 hx2 hf1 hf2 h1 h2]
  · simp [resMsg, userMsg]
    exact fun hx => hr hx.symm

/-- Witness for sequential_tool_execution at a concrete two-call run. -/
theorem sequential_tool_execution_witness :
    (processQuery (twoCallEnv "get-weather" "beijing-args" "read-file"
        "path-args" wRes1 wRes2 "sunny" "saved") [] "w").2
      = [Event.completionCall [userMsg "w"] (some []),
         Event.toolInvocation "get-weather" "beijing-args" (.ok wRes1),
         Event.completionCall [userMsg "w", resMsg wRes1] none,
         Event.toolInvocation "read-file" "path-args" (.ok wRes2),
         Event.completionCall [userMsg "w", resMsg wRes1, resMsg wRes2] none] ∧
    resMsg wRes2 ∉ [userMsg "w", resMsg wRes1] :=
  sequential_tool_execution
    (twoCallEnv "get-weather" "beijing-args" "read-file" "path-args" wRes1 wRes2
      "sunny" "saved")
    [] "w" "get-weather" "beijing-args" "read-file" "path-args" "sunny" "saved"
    wRes1 wRes2 (by decide) (by decide) (by decide) (by decide) (by decide)
    (by decide) (by decide) (by decide)

end MCPClient
